import Mathlib

/-!
Verification of the FLAC track-splitting stream rewriter (flac-tracksplit /
flac-writer). Rust functions are shallowly embedded: machine integers become
`Nat` with explicit masking where the source truncates or wraps, byte buffers
become `List Nat`, and fallible code returns a `PRes` value that distinguishes
an `Ok` return, an `anyhow` error return, and abnormal termination (a Rust
panic, e.g. `unreachable!`, a failed assertion, or an arithmetic/slice-bound
panic).
-/

namespace FlacTracksplit

/-- Result of running a Rust function: normal return, error return
(`anyhow::Result::Err`), or abnormal termination (panic). -/
inductive PRes (α : Type) where
  | ok : α → PRes α
  | err : String → PRes α
  | ab : PRes α
deriving DecidableEq, Repr

/-- `true` exactly on `PRes.ok`. -/
def PRes.isOk {α : Type} : PRes α → Bool
  | .ok _ => true
  | _ => false

/-- Fuel-bounded binary length of a natural number: `bitLenAux f n` is the
number of bits of `n`, provided `n < 2 ^ f`. Used to model Rust's
`leading_zeros`. -/
def bitLenAux : Nat → Nat → Nat
  | 0, _ => 0
  | _ + 1, 0 => 0
  | f + 1, n + 1 => bitLenAux f ((n + 1) / 2) + 1

/-- `u64::leading_zeros` for values below `2 ^ 64`. -/
def leadingZeros64 (n : Nat) : Nat := 64 - bitLenAux 64 n

/-- `u8::leading_zeros` for values below `2 ^ 8`. -/
def leadingZeros8 (n : Nat) : Nat := 8 - bitLenAux 8 n

/-- Continuation-byte reader of `utf8_decode_be_u64` (the
`for _i in 2..mask.leading_zeros()` loop, src/flac-tracksplit/src/lib.rs):
consumes `k` bytes, splicing the low six bits of each onto `state`. -/
def utf8ReadCont (state : Nat) : Nat → List Nat → Option (Nat × List Nat)
  | 0, src => some (state, src)
  | _ + 1, [] => none
  | k + 1, b :: rest => utf8ReadCont ((state <<< 6) ||| (b &&& 0x3f)) k rest

/-- `utf8_decode_be_u64` (src/flac-tracksplit/src/lib.rs): decodes the
extended-UTF8 sample/frame number from the front of `src`, returning the
value, the number of bytes consumed, and the remaining bytes. `none` models
an error return (short read or invalid prefix byte). -/
def utf8_decode_be_u64 (src : List Nat) : Option ((Nat × Nat) × List Nat) :=
  match src with
  | [] => none
  | b0 :: rest =>
    if b0 ≤ 0x7f then some ((b0, 1), rest)
    else
      let mask : Option Nat :=
        if 0xc0 ≤ b0 ∧ b0 ≤ 0xdf then some 0x1f
        else if 0xe0 ≤ b0 ∧ b0 ≤ 0xef then some 0x0f
        else if 0xf0 ≤ b0 ∧ b0 ≤ 0xf7 then some 0x07
        else if 0xf8 ≤ b0 ∧ b0 ≤ 0xfb then some 0x03
        else if 0xfc ≤ b0 ∧ b0 ≤ 0xfd then some 0x01
        else if b0 = 0xfe then some 0x00
        else none
      match mask with
      | none => none
      | some m =>
        match utf8ReadCont (b0 &&& m) (leadingZeros8 m - 2) rest with
        | none => none
        | some (state, rest) => some ((state, leadingZeros8 m - 1), rest)

/-- The `while posn > 0` loop of `utf8_encode_be_u64`: the continuation bytes
of the encoding, most significant first. `encTail input k` yields the bytes
written at positions `len - k` through `len - 1` of the output vector. -/
def encTail (input : Nat) : Nat → List Nat
  | 0 => []
  | k + 1 => (((input >>> (6 * k)) &&& 0x3f) ||| 0x80) :: encTail input k

/-- A full multi-byte encoding: the leading byte carries `start_mask` OR the
top data bits (truncated to `u8` as in the source), followed by `len - 1`
continuation bytes. -/
def encWith (input mask len : Nat) : List Nat :=
  (((input >>> (6 * (len - 1))) &&& 0xff) ||| mask) :: encTail input (len - 1)

/-- `utf8_encode_be_u64` (src/flac-tracksplit/src/lib.rs): encodes `input`
as an extended-UTF8 integer, selecting the form by `input.leading_zeros()`.
The `unreachable!` arm (fewer than 29 leading zeros) is a Rust panic and is
modelled as `PRes.ab`. -/
def utf8_encode_be_u64 (input : Nat) : PRes (List Nat) :=
  let lz := leadingZeros64 input
  if 57 ≤ lz then .ok [input &&& 0xff]
  else if 53 ≤ lz then .ok (encWith input 0xc0 2)
  else if 48 ≤ lz then .ok (encWith input 0xe0 3)
  else if 44 ≤ lz then .ok (encWith input 0xf0 4)
  else if 39 ≤ lz then .ok (encWith input 0xf8 5)
  else if 34 ≤ lz then .ok (encWith input 0xfc 6)
  else if 29 ≤ lz then .ok (encWith input 0xfe 7)
  else .ab

/-- One clocking of the CRC-8 register, polynomial `x^8 + x^2 + x + 1`
(`0x07`), MSB first. Models one bit step of `symphonia_core`'s table-driven
`Crc8Ccitt` used by the rewriter. -/
def crc8Bit (x : Nat) : Nat :=
  if 0x80 ≤ x then ((2 * x) % 0x100) ^^^ 0x07 else (2 * x) % 0x100

/-- Iterate a step function `k` times. -/
def iterStep (f : Nat → Nat) : Nat → Nat → Nat
  | 0, x => x
  | k + 1, x => iterStep f k (f x)

/-- Feed one byte into the CRC-8 register (`Crc8Ccitt::process_byte`). -/
def crc8Byte (crc b : Nat) : Nat := iterStep crc8Bit 8 (crc ^^^ (b % 0x100))

/-- CRC-8/CCITT of a byte sequence, seeded with 0: the value
`Crc8Ccitt::new(0)` reports after being fed `bytes` (in any batching —
`process_byte`, `process_double_bytes` and `process_buf_bytes` all feed the
same byte stream). -/
def crc8 (bytes : List Nat) : Nat := bytes.foldl crc8Byte 0

/-- One clocking of the CRC-16 register, polynomial `x^16 + x^15 + x^2 + 1`
(`0x8005`), MSB first, as in `symphonia_core`'s `Crc16Ansi`. -/
def crc16Bit (x : Nat) : Nat :=
  if 0x8000 ≤ x then ((2 * x) % 0x10000) ^^^ 0x8005 else (2 * x) % 0x10000

/-- Feed one byte into the CRC-16 register (`Crc16Ansi::process_byte`). -/
def crc16Byte (crc b : Nat) : Nat :=
  iterStep crc16Bit 8 (crc ^^^ ((b % 0x100) <<< 8))

/-- CRC-16/ANSI of a byte sequence, seeded with 0 (`Crc16Ansi::new(0)` fed
`bytes`). -/
def crc16 (bytes : List Nat) : Nat := bytes.foldl crc16Byte 0

/-- `OffsetFrame` (src/flac-tracksplit/src/lib.rs): per-track rewriter state. -/
structure OffsetFrame where
  initial_offset : Option Nat
  samples_processed : Nat
deriving DecidableEq, Repr

/-- The `block_size_enc` match of `OffsetFrame::process`: reads the optional
block-size tail bytes, returning the tail bytes (which are fed to both CRCs
and written out), the block's sample count as the source computes it, and
the remaining input. Match arms in source order; the explicit 8- and 16-bit
forms yield the tail value verbatim (no `+ 1`). -/
def readBlockSizeTail (enc : Nat) (src : List Nat) : PRes (List Nat × Nat × List Nat) :=
  if enc &&& 0b1111 = 0b0110 then
    match src with
    | [] => .err "8bit block size"
    | b :: rest => .ok ([b], b, rest)
  else if enc &&& 0b1111 = 0b0111 then
    match src with
    | b1 :: b2 :: rest => .ok ([b1, b2], b1 * 256 + b2, rest)
    | _ => .err "16bit block size"
  else if enc &&& 0b1111 = 0b0001 then .ok ([], 192, src)
  else if enc &&& 0b1111 = 0b0000 then .err "reserved sample count"
  else if (enc &&& 0b1111) &&& 0b1000 ≠ 0 then
    .ok ([], 256 * 2 ^ ((enc &&& 0b1111) - 8), src)
  else .ok ([], 576 * 2 ^ ((enc &&& 0b111) - 2), src)

/-- The `sample_rate_enc` match of `OffsetFrame::process`: reads the optional
sample-rate tail bytes, returning them and the remaining input. -/
def readSampleRateTail (enc : Nat) (src : List Nat) : PRes (List Nat × List Nat) :=
  if enc &&& 0b1111 = 0b1100 then
    match src with
    | [] => .err "8bit sample rate"
    | b :: rest => .ok ([b], rest)
  else if enc &&& 0b1111 = 0b1101 ∨ enc &&& 0b1111 = 0b1110 then
    match src with
    | b1 :: b2 :: rest => .ok ([b1, b2], rest)
    | _ => .err "16bit sample rate"
  else if enc &&& 0b1111 = 0b1111 then .err "invalid sample rate"
  else .ok ([], src)

/-- `OffsetFrame::process` (src/flac-tracksplit/src/lib.rs): rewrites one
FLAC frame. The byte lists `hcrc*`/`fcrc*` record the bytes fed to the
`Crc8Ccitt` and `Crc16Ansi` monitors (finalized through `crc8`/`crc16`),
and `out*` the bytes written to `frame_out`, mirroring each
`process_*`/`write_all` pair of the source. The `u64` subtraction
`orig - initial_offset` is modelled with wrap-around (release semantics);
in a debug build an underflow panics at the subtraction itself, and with
wrap-around the huge result makes the encoder hit its `unreachable!`, so
both builds surface as `PRes.ab`. A remainder shorter than two bytes makes
`remainder.len() - 2` underflow `usize`, a panic on the slice bound, again
`PRes.ab`. Mutation of `self` on early error exits is reflected by
returning the state alongside the result. -/
def process (st : OffsetFrame) (pkt : List Nat) : PRes (List Nat) × OffsetFrame :=
  match pkt with
  | s1 :: s2 :: d1 :: d2 :: rest =>
    let sync_u8 := [s1, s2]
    let desc_u8 := [d1, d2]
    let hcrc0 := sync_u8 ++ desc_u8
    let fcrc0 := sync_u8 ++ desc_u8
    let out0 := sync_u8 ++ desc_u8
    let desc := d1 * 256 + d2
    let block_size_enc := (desc &&& 0xf000) >>> 12
    let sample_rate_enc := (desc &&& 0x0f00) >>> 8
    match utf8_decode_be_u64 rest with
    | none => (.err "decoding the sample offset", st)
    | some ((orig_sample_offset, _n), rest1) =>
      let init := st.initial_offset.getD orig_sample_offset
      let st1 : OffsetFrame := { st with initial_offset := some init }
      let sample_offset := (orig_sample_offset + 2 ^ 64 - init) % 2 ^ 64
      match utf8_encode_be_u64 sample_offset with
      | .err e => (.err e, st1)
      | .ab => (.ab, st1)
      | .ok offset_u8 =>
        let hcrc1 := hcrc0 ++ offset_u8
        let fcrc1 := fcrc0 ++ offset_u8
        let out1 := out0 ++ offset_u8
        match readBlockSizeTail block_size_enc rest1 with
        | .err e => (.err e, st1)
        | .ab => (.ab, st1)
        | .ok (bs_u8, block_samples, rest2) =>
          let hcrc2 := hcrc1 ++ bs_u8
          let fcrc2 := fcrc1 ++ bs_u8
          let out2 := out1 ++ bs_u8
          match readSampleRateTail sample_rate_enc rest2 with
          | .err e => (.err e, st1)
          | .ab => (.ab, st1)
          | .ok (sr_u8, rest3) =>
            let hcrc3 := hcrc2 ++ sr_u8
            let fcrc3 := fcrc2 ++ sr_u8
            let out3 := out2 ++ sr_u8
            match rest3 with
            | [] => (.err "reading header CRC", st1)
            | _original_header_crc :: remainder =>
              if remainder.length < 2 then (.ab, st1)
              else
                let my_header_crc := crc8 hcrc3
                let fcrc4 := fcrc3 ++ [my_header_crc]
                let out4 := out3 ++ [my_header_crc]
                let subframes := remainder.take (remainder.length - 2)
                let fcrc5 := fcrc4 ++ subframes
                let out5 := out4 ++ subframes
                let my_footer_crc := crc16 fcrc5
                let out6 := out5 ++ [my_footer_crc >>> 8, my_footer_crc &&& 0xff]
                (.ok out6,
                  { st1 with samples_processed := st1.samples_processed + block_samples })
  | _ :: _ :: _ => (.err "reading frame desc", st)
  | _ => (.err "reading frame sync", st)

/-- A demultiplexer packet as consumed by `Track::write_audio`: opaque frame
bytes plus a starting timestamp and duration in samples. -/
structure Packet where
  ts : Nat
  dur : Nat
  buf : List Nat
deriving DecidableEq, Repr

/-- `Track::write_audio` (src/flac-tracksplit/src/lib.rs): feeds packets in
order through one `OffsetFrame`, appending each rewritten frame to the audio
buffer, and stops the first time `ts + dur >= end_ts`. An exhausted packet
source makes `next_packet` fail (error return); a packet starting before
`start_ts` trips the `assert_ge!` (a panic, `PRes.ab`). The source returns
`frame.samples_processed`; the final rewriter state (which carries that
field) and the buffer are returned here. -/
def write_audio (start_ts end_ts : Nat) (st : OffsetFrame) (acc : List Nat) :
    List Packet → PRes (OffsetFrame × List Nat)
  | [] => .err "next packet"
  | p :: rest =>
    if p.ts < start_ts then .ab
    else
      match process st p.buf with
      | (.err e, _) => .err e
      | (.ab, _) => .ab
      | (.ok buf, st1) =>
        if end_ts ≤ p.ts + p.dur then .ok (st1, acc ++ buf)
        else write_audio start_ts end_ts st1 (acc ++ buf) rest

namespace Metaflac

/-- `metaflac::block::StreamInfo`, the STREAMINFO block as the track
splitter manipulates it. -/
structure StreamInfo where
  min_block_size : Nat
  max_block_size : Nat
  min_frame_size : Nat
  max_frame_size : Nat
  sample_rate : Nat
  num_channels : Nat
  bits_per_sample : Nat
  total_samples : Nat
  md5 : List Nat
deriving DecidableEq, Repr

end Metaflac

/-- The STREAMINFO customization in `Track::from_tags`
(src/flac-tracksplit/src/lib.rs, lines 166-178): the source file's
STREAMINFO with `md5` zeroed and `total_samples` set to the cue-derived
window length. -/
def from_tags_streaminfo (streaminfo : Metaflac.StreamInfo) (cue_start_ts end_ts : Nat) :
    Metaflac.StreamInfo :=
  { streaminfo with
    md5 := List.replicate 16 0
    total_samples := end_ts - cue_start_ts }

/-- The STREAMINFO value `Track::write_metadata` actually serializes
(lines 303-317): the track's STREAMINFO with `total_samples` overwritten by
the caller-supplied count of samples actually processed. -/
def write_metadata_streaminfo (streaminfo : Metaflac.StreamInfo) (total_samples : Nat) :
    Metaflac.StreamInfo :=
  { streaminfo with total_samples := total_samples }

/-- The per-track body of `split_one_file` restricted to the STREAMINFO it
writes: buffer the track's audio through a fresh `OffsetFrame`
(`write_audio`), then write the metadata prelude with the returned
`samples_processed` as the new total. -/
def split_track_streaminfo (src : Metaflac.StreamInfo) (cue_start_ts end_ts : Nat)
    (pkts : List Packet) : PRes Metaflac.StreamInfo :=
  match write_audio cue_start_ts end_ts ⟨none, 0⟩ [] pkts with
  | .err e => .err e
  | .ab => .ab
  | .ok (st, _audio) =>
    .ok (write_metadata_streaminfo (from_tags_streaminfo src cue_start_ts end_ts)
      st.samples_processed)

/-- `Track::is_risky_char` (src/flac-tracksplit/src/lib.rs): characters are
modelled by their Unicode code points. The fifteen whitelisted punctuation
characters (space `_` `-` `,` `.` `!` `&` `(` `)` `[` `]` `\x7b` `\x7d` `<`
`>`) are never risky; anything else is risky exactly when it is not
alphanumeric. Rust's `char::is_alphanumeric` (full Unicode) is an external
collaborator and is passed in as a predicate. -/
def is_risky_char (isAlphanumeric : Nat → Bool) (c : Nat) : Bool :=
  if c = 32 ∨ c = 95 ∨ c = 45 ∨ c = 44 ∨ c = 46 ∨ c = 33 ∨ c = 38 ∨ c = 40 ∨
      c = 41 ∨ c = 91 ∨ c = 93 ∨ c = 123 ∨ c = 125 ∨ c = 60 ∨ c = 62 then
    false
  else
    !(isAlphanumeric c)

/-- `Track::sanitize_pathname`: replaces every risky character with `_`
(code point 95). The source's `Cow` fast path (returning the input unchanged
when no character is risky) coincides with this map. -/
def sanitize_pathname (isAlphanumeric : Nat → Bool) (name : List Nat) : List Nat :=
  name.map (fun c => if is_risky_char isAlphanumeric c then 95 else c)

/-- Rust's `char::is_alphanumeric`, modelled on the code points this
development uses: ASCII digits and letters, and the Latin-1 letters
(`U+00C0`..`U+00FF` except the multiplication and division signs), which are
alphanumeric per the Unicode properties Rust consults. Code points outside
these ranges are not needed by any theorem below. -/
def char_is_alphanumeric (c : Nat) : Bool :=
  (48 ≤ c ∧ c ≤ 57) ∨ (65 ≤ c ∧ c ≤ 90) ∨ (97 ≤ c ∧ c ≤ 122) ∨
    (192 ≤ c ∧ c ≤ 255 ∧ c ≠ 215 ∧ c ≠ 247)

/-- The sanitation rule in the spec's words, for comparison with the code:
only ASCII letters, ASCII digits and the whitelisted punctuation survive;
every other character becomes `_`. -/
def spec_sanitize_pathname (name : List Nat) : List Nat :=
  name.map (fun c =>
    if (48 ≤ c ∧ c ≤ 57) ∨ (65 ≤ c ∧ c ≤ 90) ∨ (97 ≤ c ∧ c ≤ 122) ∨
        c = 32 ∨ c = 95 ∨ c = 45 ∨ c = 44 ∨ c = 46 ∨ c = 33 ∨ c = 38 ∨
        c = 40 ∨ c = 41 ∨ c = 91 ∨ c = 93 ∨ c = 123 ∨ c = 125 ∨ c = 60 ∨
        c = 62 then
      c
    else 95)

namespace FlacWriter

/-- `symphonia_utils_xiph::flac::metadata::StreamInfo` as `flac-writer`
serializes it. `channels_bits` is the raw value `channels.bits()` of the
channel bitmask. -/
structure StreamInfo where
  block_len_min : Nat
  block_len_max : Nat
  frame_byte_len_min : Nat
  frame_byte_len_max : Nat
  sample_rate : Nat
  channels_bits : Nat
  bits_per_sample : Nat
  n_samples : Option Nat
  md5 : List Nat
deriving DecidableEq, Repr

/-- Big-endian 16-bit serialization (`write_u16::<BigEndian>`). -/
def be16 (v : Nat) : List Nat := [(v >>> 8) % 256, v % 256]

/-- Big-endian 24-bit serialization (`write_u24::<BigEndian>`). -/
def be24 (v : Nat) : List Nat := [(v >>> 16) % 256, (v >>> 8) % 256, v % 256]

/-- Big-endian 32-bit serialization (`write_u32::<BigEndian>`). -/
def be32 (v : Nat) : List Nat :=
  [(v >>> 24) % 256, (v >>> 16) % 256, (v >>> 8) % 256, v % 256]

/-- `write_streaminfo` (src/flac-writer/src/stream_info.rs): the 34 bytes of
a serialized STREAMINFO block body. `u8` shifts wrap, hence the `% 256`
after each left shift; `.truncate()` is `% 256` (to `u8`) or `% 65536`
(to `u16`). -/
def write_streaminfo (info : StreamInfo) : List Nat :=
  let sample_rate_ls_nybble := info.sample_rate &&& 0b1111
  let num_channels := (info.channels_bits - 1) % 256
  let bits_per_sample := (info.bits_per_sample - 1) % 256
  let bps_msb := bits_per_sample >>> 4
  let bps_lsb := bits_per_sample &&& 0b1111
  let samples := info.n_samples.getD 0
  let n_samples_msb := (samples >>> 32) % 256
  be16 info.block_len_min ++ be16 info.block_len_max ++
    be24 info.frame_byte_len_min ++ be24 info.frame_byte_len_max ++
    be16 ((info.sample_rate >>> 4) % 65536) ++
    [((sample_rate_ls_nybble <<< 5) % 256) ||| ((num_channels <<< 1) % 256) ||| bps_msb] ++
    [((bps_lsb <<< 4) % 256) ||| n_samples_msb] ++
    be32 (samples &&& 0xFFFFFFFF) ++
    info.md5

/-- Reader for the claimed bit layout ("20 bits sample rate" starting at bit
80 of the block, big-endian), i.e. what a third-party FLAC parser reports as
the sample rate of the written block: the sixteen bits of bytes 10-11
followed by the high nibble of byte 12. -/
def read_sample_rate (bytes : List Nat) : Nat :=
  ((bytes.getD 10 0) <<< 12) ||| ((bytes.getD 11 0) <<< 4) ||| ((bytes.getD 12 0) >>> 4)

/-- The `StreamInfo` of `flac-writer`'s own `simple_streaminfo` test
(src/flac-writer/src/tests.rs): a stereo 44.1 kHz 16-bit stream. -/
def test_streaminfo : StreamInfo :=
  { block_len_min := 4608
    block_len_max := 4608
    frame_byte_len_min := 0
    frame_byte_len_max := 19024
    sample_rate := 44100
    channels_bits := 3
    bits_per_sample := 16
    n_samples := some 118981800
    md5 := [0x2d, 0x19, 0x47, 0x6b, 0x6a, 0xbc, 0x3e, 0xf4,
            0xe7, 0xc3, 0x2b, 0x64, 0x11, 0x0e, 0x59, 0xa5] }

end FlacWriter

/-- A frame whose source CRCs are correct: header bytes `hdr` (sync,
descriptor, sample number and tails), the CRC-8 of `hdr`, one subframe byte
`0xAB`, then the big-endian CRC-16 of everything preceding. -/
def crc_correct_frame (hdr : List Nat) : List Nat :=
  hdr ++ [crc8 hdr] ++ [0xAB] ++
    [crc16 (hdr ++ [crc8 hdr] ++ [0xAB]) >>> 8, crc16 (hdr ++ [crc8 hdr] ++ [0xAB]) &&& 0xff]

/-! Helper lemmas. -/

theorem bitLenAux_le (f : Nat) : ∀ n, bitLenAux f n ≤ f := by
  induction f with
  | zero => intro n; simp [bitLenAux]
  | succ f ih =>
    intro n
    cases n with
    | zero => simp [bitLenAux]
    | succ m => simpa [bitLenAux, Nat.succ_le_succ_iff] using ih ((m + 1) / 2)

theorem lt_two_pow_bitLenAux (f : Nat) : ∀ n, n < 2 ^ f → n < 2 ^ bitLenAux f n := by
  induction f with
  | zero => intro n h; simpa [bitLenAux] using h
  | succ f ih =>
    intro n h
    cases n with
    | zero => simp [bitLenAux]
    | succ m =>
      have hdiv : (m + 1) / 2 < 2 ^ f := by
        have := Nat.div_lt_iff_lt_mul (by norm_num : 0 < 2) |>.mpr
          (by rw [pow_succ] at h; omega : m + 1 < 2 ^ f * 2)
        exact this
      have hlt := ih ((m + 1) / 2) hdiv
      have hmod := Nat.div_add_mod (m + 1) 2
      have hm2 : (m + 1) % 2 < 2 := Nat.mod_lt _ (by norm_num)
      simp only [bitLenAux, pow_succ]
      omega

theorem bitLenAux_of_ge : ∀ f n, 2 ^ f ≤ n → n < 2 ^ (f + 1) → bitLenAux (f + 1) n = f + 1 := by
  intro f
  induction f with
  | zero =>
    intro n h1 h2
    have : n = 1 := by omega
    subst this
    rfl
  | succ f ih =>
    intro n h1 h2
    have hn : 0 < n := lt_of_lt_of_le (Nat.pos_pow_of_pos _ (by norm_num)) h1
    obtain ⟨m, rfl⟩ : ∃ m, n = m + 1 := ⟨n - 1, by omega⟩
    have hlo : 2 ^ f ≤ (m + 1) / 2 := by
      rw [Nat.le_div_iff_mul_le (by norm_num : 0 < 2)]
      rw [pow_succ] at h1
      omega
    have hhi : (m + 1) / 2 < 2 ^ (f + 1) := by
      rw [Nat.div_lt_iff_lt_mul (by norm_num : 0 < 2)]
      rw [pow_succ] at h2
      omega
    simp only [bitLenAux]
    rw [ih ((m + 1) / 2) hlo hhi]

theorem encTail_length (input : Nat) : ∀ k, (encTail input k).length = k := by
  intro k
  induction k with
  | zero => rfl
  | succ k ih => simp [encTail, ih]

theorem bitLenAux_of_fuel_le : ∀ f n, 2 ^ f ≤ n → bitLenAux f n = f := by
  intro f
  induction f with
  | zero => intro n _; rfl
  | succ f ih =>
    intro n h
    have hn : 2 ≤ n := le_trans (by have := Nat.one_le_two_pow (n := f); simp [pow_succ]; omega) h
    obtain ⟨m, rfl⟩ : ∃ m, n = m + 1 := ⟨n - 1, by omega⟩
    have hlo : 2 ^ f ≤ (m + 1) / 2 := by
      rw [Nat.le_div_iff_mul_le (by norm_num : 0 < 2)]
      rw [pow_succ] at h
      omega
    simp only [bitLenAux]
    rw [ih ((m + 1) / 2) hlo]

/-- The encoder succeeds only on values below `2 ^ 35` (at most 35
effective bits). -/
theorem utf8_encode_ok_lt (v : Nat) (bs : List Nat)
    (h : utf8_encode_be_u64 v = .ok bs) : v < 2 ^ 35 := by
  by_cases hv : v < 2 ^ 64
  · have hlt := lt_two_pow_bitLenAux 64 v hv
    simp only [utf8_encode_be_u64, leadingZeros64] at h
    split_ifs at h <;>
      exact lt_of_lt_of_le hlt (Nat.pow_le_pow_right (by norm_num) (by omega))
  · have hfuel : bitLenAux 64 v = 64 := bitLenAux_of_fuel_le 64 v (by omega)
    simp only [utf8_encode_be_u64, leadingZeros64, hfuel] at h
    norm_num at h
    exact absurd h (by simp)

/-- Values with the top bit of a `u64` set make the encoder hit its
`unreachable!` arm. -/
theorem utf8_encode_ab_of_large (m : Nat) (h1 : 2 ^ 63 ≤ m) (h2 : m < 2 ^ 64) :
    utf8_encode_be_u64 m = .ab := by
  have hb : bitLenAux 64 m = 64 := bitLenAux_of_ge 63 m h1 h2
  unfold utf8_encode_be_u64 leadingZeros64
  rw [hb]
  norm_num

/-! Theorems about the claims. -/

/-- C1: the extended-UTF8 round-trip law fails at the top of the claimed
range: the encoder terminates abnormally (Rust `unreachable!` panic) on
`2 ^ 35`, a value inside `[0, 2 ^ 36)` that the claim says must round-trip,
and likewise on `2 ^ 36`, where the claim says it must return an error —
it never returns an error for any unrepresentable value. -/
theorem utf8_encode_aborts_at_boundary :
    utf8_encode_be_u64 (2 ^ 35) = PRes.ab ∧ utf8_encode_be_u64 (2 ^ 36) = PRes.ab := by
  constructor <;> rfl

/-- C4 counterexample: `2 ^ 20` has 21 effective bits, so the claim requires
the 4-byte form, but the encoder emits the 5-byte form. -/
theorem utf8_encode_not_minimal_at_21_bits :
    utf8_encode_be_u64 (2 ^ 20) = PRes.ok [0xf8, 0x84, 0x80, 0x80, 0x80] ∧
      64 - leadingZeros64 (2 ^ 20) = 21 := by
  constructor <;> rfl

set_option maxHeartbeats 1000000 in
/-- C4 (amended): the encoder succeeds exactly up to 35 effective bits, with
lengths 1 for at most 7 effective bits, 2 for at most 11, 3 for at most 16,
4 for at most 20, 5 for at most 25, 6 for at most 30, and 7 for at most 35 —
one byte wider than minimal at exactly 21, 26 and 31 effective bits. -/
theorem utf8_encode_length (x : Nat) (hx : x < 2 ^ 64)
    (h : 64 - leadingZeros64 x ≤ 35) :
    ∃ bs, utf8_encode_be_u64 x = PRes.ok bs ∧
      bs.length = (if 64 - leadingZeros64 x ≤ 7 then 1
        else if 64 - leadingZeros64 x ≤ 11 then 2
        else if 64 - leadingZeros64 x ≤ 16 then 3
        else if 64 - leadingZeros64 x ≤ 20 then 4
        else if 64 - leadingZeros64 x ≤ 25 then 5
        else if 64 - leadingZeros64 x ≤ 30 then 6
        else 7) := by
  have hb : bitLenAux 64 x ≤ 64 := bitLenAux_le 64 x
  simp only [utf8_encode_be_u64, leadingZeros64] at h ⊢
  split_ifs <;>
    first
      | (refine ⟨_, rfl, ?_⟩; simp [encWith, encTail_length] <;> omega)
      | (exfalso; omega)

/-- C4 witness: `0x85` has 8 effective bits and encodes to 2 bytes. -/
theorem utf8_encode_length_witness :
    (0x85 : Nat) < 2 ^ 64 ∧ 64 - leadingZeros64 0x85 ≤ 35 ∧
      ∃ bs, utf8_encode_be_u64 0x85 = PRes.ok bs ∧
        bs.length = (if 64 - leadingZeros64 0x85 ≤ 7 then 1
          else if 64 - leadingZeros64 0x85 ≤ 11 then 2
          else if 64 - leadingZeros64 0x85 ≤ 16 then 3
          else if 64 - leadingZeros64 0x85 ≤ 20 then 4
          else if 64 - leadingZeros64 0x85 ≤ 25 then 5
          else if 64 - leadingZeros64 0x85 ≤ 30 then 6
          else 7) :=
  ⟨by norm_num, by decide, utf8_encode_length 0x85 (by norm_num) (by decide)⟩

/-- C3: on a frame whose block-size encoding is `0b0110` with tail byte
`100`, `process` succeeds and accounts `100` block samples — the tail value
taken verbatim, where the claim (and the FLAC format) require `n + 1 = 101`.
The resulting `samples_processed` underreports every such frame by one. -/
theorem process_block_size_tail_off_by_one :
    ((process ⟨none, 0⟩ [0xFF, 0xF8, 0x60, 0x00, 0x00, 100, 0xAA, 0x01, 0x02]).1).isOk = true ∧
      (process ⟨none, 0⟩ [0xFF, 0xF8, 0x60, 0x00, 0x00, 100, 0xAA, 0x01, 0x02]).2.samples_processed
        = 100 := by
  constructor <;> rfl

/-- C7 counterexample: a frame that runs short just after the header-CRC
byte (no room for the two footer-CRC bytes) makes `process` terminate
abnormally — the `remainder.len() - 2` slice bound underflows `usize` —
instead of returning an error as the claim states. -/
theorem process_short_remainder_aborts :
    (process ⟨none, 0⟩ [0xFF, 0xF8, 0x10, 0x00, 0x00, 0xAA]).1 = PRes.ab := by
  rfl

/-- C8: `write_streaminfo` emits 34 bytes with the MD5 in the last sixteen,
but the packed byte at offset 12 shifts the sample-rate nibble left by 5
rather than 4 (contradicting the function's own layout comment), so the
20-bit big-endian sample-rate field of the written block does not hold the
input's sample rate: for the crate's own `simple_streaminfo` test value
44100 a FLAC parser reads back 44104. -/
theorem write_streaminfo_sample_rate_mangled :
    (FlacWriter.write_streaminfo FlacWriter.test_streaminfo).length = 34 ∧
      List.drop 18 (FlacWriter.write_streaminfo FlacWriter.test_streaminfo) =
        FlacWriter.test_streaminfo.md5 ∧
      FlacWriter.read_sample_rate (FlacWriter.write_streaminfo FlacWriter.test_streaminfo)
        = 44104 ∧
      FlacWriter.test_streaminfo.sample_rate = 44100 := by
  refine ⟨rfl, rfl, rfl, rfl⟩

/-- C2: every frame buffer returned by `OffsetFrame::process` splits as
header bytes, then the header-CRC byte — the CRC-8 of exactly the output
bytes preceding it — then the untouched subframe bytes, then two final
bytes carrying, big-endian, the CRC-16 of all preceding output bytes of the
frame (the rewritten header-CRC byte included). -/
theorem process_crc_validity (st : OffsetFrame) (pkt buf : List Nat) (stF : OffsetFrame)
    (h : process st pkt = (PRes.ok buf, stF)) :
    ∃ pre sub, buf = pre ++ [crc8 pre] ++ sub ++
      [crc16 (pre ++ [crc8 pre] ++ sub) >>> 8, crc16 (pre ++ [crc8 pre] ++ sub) &&& 0xff] := by
  rcases pkt with _ | ⟨s1, _ | ⟨s2, _ | ⟨d1, _ | ⟨d2, rest⟩⟩⟩⟩ <;>
    simp only [process] at h
  · exact absurd h (by simp)
  · exact absurd h (by simp)
  · exact absurd h (by simp)
  · exact absurd h (by simp)
  repeat' split at h
  all_goals simp at h
  rename_i off henc xt bsu bsamp r2 hbs xp sru srcl crcb rem hsr hlen
  obtain ⟨hbuf, -⟩ := h
  refine ⟨[s1, s2] ++ [d1, d2] ++ off ++ bsu ++ sru, List.take (rem.length - 2) rem, ?_⟩
  rw [← hbuf]
  simp [List.append_assoc]

set_option maxRecDepth 40000 in
/-- C2 witness: a concrete frame (fixed 192-sample block, sample number 0,
two subframe bytes) processed by a fresh rewriter, with the split
exhibited. -/
theorem process_crc_validity_witness :
    process ⟨none, 0⟩ [0xFF, 0xF8, 0x10, 0x00, 0x00, 0xAA, 0x01, 0x02, 0x03, 0x04] =
      (PRes.ok [255, 248, 16, 0, 0, 40, 1, 2, 1, 157], ⟨some 0, 192⟩) ∧
    ∃ pre sub, [255, 248, 16, 0, 0, 40, 1, 2, 1, 157] = pre ++ [crc8 pre] ++ sub ++
      [crc16 (pre ++ [crc8 pre] ++ sub) >>> 8, crc16 (pre ++ [crc8 pre] ++ sub) &&& 0xff] :=
  ⟨by decide,
    process_crc_validity ⟨none, 0⟩ [0xFF, 0xF8, 0x10, 0x00, 0x00, 0xAA, 0x01, 0x02, 0x03, 0x04]
      [255, 248, 16, 0, 0, 40, 1, 2, 1, 157] ⟨some 0, 192⟩ (by decide)⟩

/-- C10: the rebasing subtraction is unchecked. When the rewriter has
recorded a first-frame offset `init` (necessarily below `2 ^ 36`, the range
of decodable sample numbers) and a later packet's decoded sample number is
strictly smaller, `process` never returns: the subtraction underflows — a
panic at the subtraction in a debug build, wrap-around modulo `2 ^ 64`
followed by the encoder's `unreachable!` panic in release — so the call
terminates abnormally instead of returning an error, and no rebased frame
exists. -/
theorem process_underflow_aborts (st : OffsetFrame) (pkt : List Nat) (init v n : Nat)
    (rest1 : List Nat)
    (hinit : st.initial_offset = some init) (hbound : init < 2 ^ 36)
    (hdec : utf8_decode_be_u64 (pkt.drop 4) = some ((v, n), rest1))
    (hv : v < init) :
    (process st pkt).1 = PRes.ab := by
  rcases pkt with _ | ⟨s1, _ | ⟨s2, _ | ⟨d1, _ | ⟨d2, rest⟩⟩⟩⟩
  · simp [utf8_decode_be_u64] at hdec
  · simp [utf8_decode_be_u64] at hdec
  · simp [utf8_decode_be_u64] at hdec
  · simp [utf8_decode_be_u64] at hdec
  · have hrest : utf8_decode_be_u64 rest = some ((v, n), rest1) := by simpa using hdec
    have hmod : (v + 2 ^ 64 - init) % 2 ^ 64 = v + 2 ^ 64 - init :=
      Nat.mod_eq_of_lt (by omega)
    have henc : utf8_encode_be_u64 ((v + 2 ^ 64 - init) % 2 ^ 64) = PRes.ab := by
      rw [hmod]
      exact utf8_encode_ab_of_large _ (by omega) (by omega)
    norm_num at henc
    simp [process, hrest, hinit, henc]

/-- C10 witness: a rewriter whose first frame started at sample 5 receives a
frame numbered 0 and aborts. -/
theorem process_underflow_aborts_witness :
    (process ⟨some 5, 0⟩ [0xFF, 0xF8, 0x10, 0x00, 0x00, 0xAA, 0x01, 0x02, 0x03, 0x04]).1 =
      PRes.ab :=
  process_underflow_aborts ⟨some 5, 0⟩
    [0xFF, 0xF8, 0x10, 0x00, 0x00, 0xAA, 0x01, 0x02, 0x03, 0x04]
    5 0 1 [0xAA, 0x01, 0x02, 0x03, 0x04] rfl (by norm_num) (by decide) (by norm_num)

/-- C6: the STREAMINFO a track's output file carries — the source
STREAMINFO as customized by `Track::from_tags` and then finalized by
`Track::write_metadata` with the sample count returned from
`Track::write_audio` — has a zeroed MD5, `total_samples` equal to the
rewriter's final `samples_processed`, and every other field taken unchanged
from the source STREAMINFO. -/
theorem split_track_streaminfo_fields (src : Metaflac.StreamInfo)
    (cue_start_ts end_ts : Nat) (pkts : List Packet) (stF : OffsetFrame)
    (audio : List Nat) (si : Metaflac.StreamInfo)
    (hw : write_audio cue_start_ts end_ts ⟨none, 0⟩ [] pkts = PRes.ok (stF, audio))
    (hs : split_track_streaminfo src cue_start_ts end_ts pkts = PRes.ok si) :
    si.md5 = List.replicate 16 0 ∧
      si.total_samples = stF.samples_processed ∧
      si.min_block_size = src.min_block_size ∧
      si.max_block_size = src.max_block_size ∧
      si.min_frame_size = src.min_frame_size ∧
      si.max_frame_size = src.max_frame_size ∧
      si.sample_rate = src.sample_rate ∧
      si.num_channels = src.num_channels ∧
      si.bits_per_sample = src.bits_per_sample := by
  rw [split_track_streaminfo, hw] at hs
  obtain rfl : write_metadata_streaminfo (from_tags_streaminfo src cue_start_ts end_ts)
      stF.samples_processed = si := by simpa using hs
  simp [write_metadata_streaminfo, from_tags_streaminfo]

set_option maxRecDepth 40000 in
/-- C6 witness: a one-packet track through the whole per-track pipeline. -/
theorem split_track_streaminfo_fields_witness :
    (split_track_streaminfo ⟨4608, 4608, 0, 19024, 44100, 2, 16, 500, List.replicate 16 7⟩
        0 100 [⟨0, 192, [0xFF, 0xF8, 0x10, 0x00, 0x00, 0xAA, 0x01, 0x02, 0x03, 0x04]⟩] =
      PRes.ok ⟨4608, 4608, 0, 19024, 44100, 2, 16, 192, List.replicate 16 0⟩) ∧
    ((⟨4608, 4608, 0, 19024, 44100, 2, 16, 192, List.replicate 16 0⟩ :
        Metaflac.StreamInfo).md5 = List.replicate 16 0 ∧
      (⟨4608, 4608, 0, 19024, 44100, 2, 16, 192, List.replicate 16 0⟩ :
        Metaflac.StreamInfo).total_samples =
        (⟨some 0, 192⟩ : OffsetFrame).samples_processed ∧
      (4608 : Nat) = 4608 ∧ (4608 : Nat) = 4608 ∧ (0 : Nat) = 0 ∧ (19024 : Nat) = 19024 ∧
      (44100 : Nat) = 44100 ∧ (2 : Nat) = 2 ∧ (16 : Nat) = 16) :=
  ⟨by decide,
    by
      have h := split_track_streaminfo_fields
        ⟨4608, 4608, 0, 19024, 44100, 2, 16, 500, List.replicate 16 7⟩ 0 100
        [⟨0, 192, [0xFF, 0xF8, 0x10, 0x00, 0x00, 0xAA, 0x01, 0x02, 0x03, 0x04]⟩]
        ⟨some 0, 192⟩ [255, 248, 16, 0, 0, 40, 1, 2, 1, 157]
        ⟨4608, 4608, 0, 19024, 44100, 2, 16, 192, List.replicate 16 0⟩
        (by decide) (by decide)
      simpa using h⟩

set_option maxRecDepth 40000 in
/-- C5 counterexample: with the first frame starting at sample 0 (processed
unchanged, as the first conjunct shows), a CRC-correct second frame whose
sample number `2 ^ 20` is minimally encoded in 4 bytes is NOT returned
byte-for-byte: the encoder re-encodes the unchanged offset into 5 bytes, so
the output differs from the source frame. -/
theorem process_zero_offset_not_identity :
    (process ⟨none, 0⟩ (crc_correct_frame [0xFF, 0xF8, 0x10, 0x00, 0x00])).1 =
      PRes.ok (crc_correct_frame [0xFF, 0xF8, 0x10, 0x00, 0x00]) ∧
    utf8_decode_be_u64 [0xF4, 0x80, 0x80, 0x80] = some ((2 ^ 20, 4), []) ∧
    (process (process ⟨none, 0⟩ (crc_correct_frame [0xFF, 0xF8, 0x10, 0x00, 0x00])).2
        (crc_correct_frame [0xFF, 0xF8, 0x10, 0x00, 0xF4, 0x80, 0x80, 0x80])).1 ≠
      PRes.ok (crc_correct_frame [0xFF, 0xF8, 0x10, 0x00, 0xF4, 0x80, 0x80, 0x80]) := by
  exact ⟨by decide, by decide, by decide⟩

/-- C5 (amended): when the rewriter's recorded initial offset is zero (or it
is about to record a first-frame number of zero) and the frame's source
CRCs are correct, `process` returns the source frame byte-for-byte,
provided additionally that the encoder reproduces the sample number's
source bytes exactly (true in particular whenever the source encoding is
the encoder's own choice of width; false at 21, 26, 31 and 36 effective
bits, as the counterexample shows). -/
theorem process_zero_offset_identity
    (st : OffsetFrame) (s1 s2 d1 d2 crcByte : Nat) (numB bsB srB sub : List Nat)
    (f1 f2 v n bsamp : Nat)
    (hoff : st.initial_offset = some 0 ∨ (st.initial_offset = none ∧ v = 0))
    (hdec : utf8_decode_be_u64 (numB ++ (bsB ++ (srB ++ (crcByte :: (sub ++ [f1, f2]))))) =
      some ((v, n), bsB ++ (srB ++ (crcByte :: (sub ++ [f1, f2])))))
    (henc : utf8_encode_be_u64 v = PRes.ok numB)
    (hbs : readBlockSizeTail (((d1 * 256 + d2) &&& 0xf000) >>> 12)
        (bsB ++ (srB ++ (crcByte :: (sub ++ [f1, f2])))) =
      PRes.ok (bsB, bsamp, srB ++ (crcByte :: (sub ++ [f1, f2]))))
    (hsr : readSampleRateTail (((d1 * 256 + d2) &&& 0x0f00) >>> 8)
        (srB ++ (crcByte :: (sub ++ [f1, f2]))) =
      PRes.ok (srB, crcByte :: (sub ++ [f1, f2])))
    (hcrc8 : crc8 ([s1, s2] ++ [d1, d2] ++ numB ++ bsB ++ srB) = crcByte)
    (hf1 : crc16 ([s1, s2] ++ [d1, d2] ++ numB ++ bsB ++ srB ++ [crcByte] ++ sub) >>> 8 = f1)
    (hf2 : crc16 ([s1, s2] ++ [d1, d2] ++ numB ++ bsB ++ srB ++ [crcByte] ++ sub) &&& 0xff
      = f2) :
    (process st (s1 :: s2 :: d1 :: d2 ::
        (numB ++ (bsB ++ (srB ++ (crcByte :: (sub ++ [f1, f2]))))))).1 =
      PRes.ok (s1 :: s2 :: d1 :: d2 ::
        (numB ++ (bsB ++ (srB ++ (crcByte :: (sub ++ [f1, f2])))))) := by
  have hv35 : v < 2 ^ 35 := utf8_encode_ok_lt v numB henc
  have hoffv : (v + 2 ^ 64 - st.initial_offset.getD v) % 2 ^ 64 = v := by
    rcases hoff with h0 | ⟨h0, rfl⟩ <;> rw [h0] <;>
      simp only [Option.getD_some, Option.getD_none] <;> omega
  norm_num at hoffv
  subst hcrc8
  subst hf1
  subst hf2
  simp only [List.append_assoc, List.cons_append, List.nil_append,
    List.singleton_append] at hdec hbs hsr
  simp [process, hdec, hoffv, henc, hbs, hsr, List.append_assoc]

set_option maxRecDepth 40000 in
set_option maxHeartbeats 1600000 in
/-- C5 witness: the amended theorem applied to a concrete CRC-correct frame
with sample number 0 fed to a rewriter whose initial offset is 0. -/
theorem process_zero_offset_identity_witness :
    (process ⟨some 0, 0⟩ (crc_correct_frame [0xFF, 0xF8, 0x10, 0x00, 0x00])).1 =
      PRes.ok (crc_correct_frame [0xFF, 0xF8, 0x10, 0x00, 0x00]) :=
  process_zero_offset_identity ⟨some 0, 0⟩ 0xFF 0xF8 0x10 0x00
    (crc8 ([0xFF, 0xF8] ++ [0x10, 0x00] ++ [0] ++ [] ++ []))
    [0] [] [] [0xAB]
    (crc16 ([0xFF, 0xF8] ++ [0x10, 0x00] ++ [0] ++ [] ++ [] ++
      [crc8 ([0xFF, 0xF8] ++ [0x10, 0x00] ++ [0] ++ [] ++ [])] ++ [0xAB]) >>> 8)
    (crc16 ([0xFF, 0xF8] ++ [0x10, 0x00] ++ [0] ++ [] ++ [] ++
      [crc8 ([0xFF, 0xF8] ++ [0x10, 0x00] ++ [0] ++ [] ++ [])] ++ [0xAB]) &&& 0xff)
    0 1 192
    (Or.inl rfl) (by decide) (by decide) (by decide) (by decide) rfl rfl rfl

/-- C7 (amended): `process` returns an error — never terminating abnormally
and leaving the rewriter state a perfectly usable value — when the frame is
too short for the sync, descriptor or sample-number reads, when the
sample-number prefix is invalid, when (the earlier steps succeeding and the
rebased offset re-encoding) the block-size encoding is `0b0000`
(`readBlockSizeTail 0` errors) or the sample-rate encoding is `0b1111`
(`readSampleRateTail 15` errors), when a tail read runs short, and when the
header-CRC byte is missing; but — correcting the claim — a frame with fewer
than two bytes after the header-CRC byte terminates abnormally (`usize`
underflow on the subframe slice bound) instead of returning an error. -/
theorem process_failure_modes :
    (∀ st (pkt : List Nat), pkt.length < 5 → ∃ e, (process st pkt).1 = PRes.err e) ∧
    (∀ st s1 s2 d1 d2 (rest : List Nat), utf8_decode_be_u64 rest = none →
      (process st (s1 :: s2 :: d1 :: d2 :: rest)).1 = PRes.err "decoding the sample offset") ∧
    (∀ src, readBlockSizeTail 0 src = PRes.err "reserved sample count") ∧
    (∀ src, readSampleRateTail 15 src = PRes.err "invalid sample rate") ∧
    (∀ st s1 s2 d1 d2 (rest : List Nat) v n rest1 off e,
      utf8_decode_be_u64 rest = some ((v, n), rest1) →
      utf8_encode_be_u64 ((v + 2 ^ 64 - st.initial_offset.getD v) % 2 ^ 64) = PRes.ok off →
      readBlockSizeTail (((d1 * 256 + d2) &&& 0xf000) >>> 12) rest1 = PRes.err e →
      (process st (s1 :: s2 :: d1 :: d2 :: rest)).1 = PRes.err e) ∧
    (∀ st s1 s2 d1 d2 (rest : List Nat) v n rest1 off bsB bsamp rest2 e,
      utf8_decode_be_u64 rest = some ((v, n), rest1) →
      utf8_encode_be_u64 ((v + 2 ^ 64 - st.initial_offset.getD v) % 2 ^ 64) = PRes.ok off →
      readBlockSizeTail (((d1 * 256 + d2) &&& 0xf000) >>> 12) rest1 =
        PRes.ok (bsB, bsamp, rest2) →
      readSampleRateTail (((d1 * 256 + d2) &&& 0x0f00) >>> 8) rest2 = PRes.err e →
      (process st (s1 :: s2 :: d1 :: d2 :: rest)).1 = PRes.err e) ∧
    (∀ st s1 s2 d1 d2 (rest : List Nat) v n rest1 off bsB bsamp rest2 srB,
      utf8_decode_be_u64 rest = some ((v, n), rest1) →
      utf8_encode_be_u64 ((v + 2 ^ 64 - st.initial_offset.getD v) % 2 ^ 64) = PRes.ok off →
      readBlockSizeTail (((d1 * 256 + d2) &&& 0xf000) >>> 12) rest1 =
        PRes.ok (bsB, bsamp, rest2) →
      readSampleRateTail (((d1 * 256 + d2) &&& 0x0f00) >>> 8) rest2 = PRes.ok (srB, []) →
      (process st (s1 :: s2 :: d1 :: d2 :: rest)).1 = PRes.err "reading header CRC") ∧
    (∀ st s1 s2 d1 d2 (rest : List Nat) v n rest1 off bsB bsamp rest2 srB crcB remainder,
      utf8_decode_be_u64 rest = some ((v, n), rest1) →
      utf8_encode_be_u64 ((v + 2 ^ 64 - st.initial_offset.getD v) % 2 ^ 64) = PRes.ok off →
      readBlockSizeTail (((d1 * 256 + d2) &&& 0xf000) >>> 12) rest1 =
        PRes.ok (bsB, bsamp, rest2) →
      readSampleRateTail (((d1 * 256 + d2) &&& 0x0f00) >>> 8) rest2 =
        PRes.ok (srB, crcB :: remainder) →
      remainder.length < 2 →
      (process st (s1 :: s2 :: d1 :: d2 :: rest)).1 = PRes.ab) := by
  refine ⟨?_, ?_, ?_, ?_, ?_, ?_, ?_, ?_⟩
  · intro st pkt h
    rcases pkt with _ | ⟨a, _ | ⟨b, _ | ⟨c, _ | ⟨d, rest⟩⟩⟩⟩
    · exact ⟨_, rfl⟩
    · exact ⟨_, rfl⟩
    · exact ⟨_, rfl⟩
    · exact ⟨_, rfl⟩
    · obtain rfl : rest = [] := by
        simp only [List.length_cons] at h
        exact List.eq_nil_of_length_eq_zero (by omega)
      exact ⟨_, rfl⟩
  · intro st s1 s2 d1 d2 rest hdec
    simp [process, hdec]
  · intro src; rfl
  · intro src; rfl
  · intro st s1 s2 d1 d2 rest v n rest1 off e hdec henc hbs
    norm_num at henc
    simp [process, hdec, henc, hbs]
  · intro st s1 s2 d1 d2 rest v n rest1 off bsB bsamp rest2 e hdec henc hbs hsr
    norm_num at henc
    simp [process, hdec, henc, hbs, hsr]
  · intro st s1 s2 d1 d2 rest v n rest1 off bsB bsamp rest2 srB hdec henc hbs hsr
    norm_num at henc
    simp [process, hdec, henc, hbs, hsr]
  · intro st s1 s2 d1 d2 rest v n rest1 off bsB bsamp rest2 srB crcB remainder
      hdec henc hbs hsr hlen
    norm_num at henc
    simp [process, hdec, henc, hbs, hsr, hlen]

/-- C7 witness: a three-byte frame yields a short-read error, and a frame
with block-size encoding `0b0000` yields the reserved-encoding error. -/
theorem process_failure_modes_witness :
    (∃ e, (process ⟨none, 0⟩ [0xFF, 0xF8, 0x10]).1 = PRes.err e) ∧
    (process ⟨none, 0⟩ [0xFF, 0xF8, 0x00, 0x00, 0x00, 0xAA, 0x01, 0x02, 0x03]).1 =
      PRes.err "reserved sample count" :=
  ⟨process_failure_modes.1 ⟨none, 0⟩ [0xFF, 0xF8, 0x10] (by decide),
    process_failure_modes.2.2.2.2.1 ⟨none, 0⟩ 0xFF 0xF8 0x00 0x00
      [0x00, 0xAA, 0x01, 0x02, 0x03] 0 1 [0xAA, 0x01, 0x02, 0x03] [0]
      "reserved sample count" (by decide) (by decide) (by decide)⟩

/-- C9 counterexample: `é` (U+00E9), which is not an ASCII letter, digit or
whitelisted punctuation, must become `_` per the claim, but the code keeps
it because Rust's `char::is_alphanumeric` accepts it (full Unicode): the
sanitizer and the claimed ASCII rule disagree on `[0xE9]`. -/
theorem sanitize_pathname_keeps_unicode_letter :
    sanitize_pathname char_is_alphanumeric [0xE9] = [0xE9] ∧
      spec_sanitize_pathname [0xE9] = [95] := by
  constructor <;> rfl

/-- C9 (amended): a character survives `sanitize_pathname` exactly when it
is in the whitelisted punctuation class or `char::is_alphanumeric` accepts
it (Unicode-alphanumeric rather than ASCII-only); every other character —
in particular `/` (47) and `?` (63) — becomes `_` (95). -/
theorem sanitize_pathname_characterization :
    (∀ (isAlnum : Nat → Bool) (name : List Nat),
      sanitize_pathname isAlnum name = name.map (fun c =>
        if c = 32 ∨ c = 95 ∨ c = 45 ∨ c = 44 ∨ c = 46 ∨ c = 33 ∨ c = 38 ∨ c = 40 ∨
            c = 41 ∨ c = 91 ∨ c = 93 ∨ c = 123 ∨ c = 125 ∨ c = 60 ∨ c = 62 ∨
            isAlnum c = true then
          c
        else 95)) ∧
    sanitize_pathname char_is_alphanumeric [47, 63] = [95, 95] := by
  refine ⟨fun isAlnum name => List.map_congr_left fun c _ => ?_, rfl⟩
  by_cases hp : c = 32 ∨ c = 95 ∨ c = 45 ∨ c = 44 ∨ c = 46 ∨ c = 33 ∨ c = 38 ∨
      c = 40 ∨ c = 41 ∨ c = 91 ∨ c = 93 ∨ c = 123 ∨ c = 125 ∨ c = 60 ∨ c = 62
  · have h1 : is_risky_char isAlnum c = false := by simp [is_risky_char, hp]
    have h2 : c = 32 ∨ c = 95 ∨ c = 45 ∨ c = 44 ∨ c = 46 ∨ c = 33 ∨ c = 38 ∨ c = 40 ∨
        c = 41 ∨ c = 91 ∨ c = 93 ∨ c = 123 ∨ c = 125 ∨ c = 60 ∨ c = 62 ∨
        isAlnum c = true := by tauto
    simp [h1, h2]
  · have h1 : is_risky_char isAlnum c = !(isAlnum c) := by simp [is_risky_char, hp]
    cases ha : isAlnum c <;> simp [h1, ha, hp]

end FlacTracksplit
